import Mathlib

/-!
Shallow embedding of the HAI-Backend conversation layer
(`app/services/chat.py`, `app/api/chat.py`, `app/core/llm.py`,
`app/utils/helpers.py`, `app/crud/message.py`, `app/crud/memory.py`)
and proofs of the specification claims about it.

Text is modelled as `List Char`; Python `str.lower()` is modelled
character-wise for the ASCII range, which covers the literal patterns the
classifier uses. Python regexes of the shape `a.*b.*c` (the only shape in
`ChatService.intent_patterns`) are modelled as ordered literal-fragment
matching with newline-free gaps, exactly `re.search` semantics for that
fragment class.
-/

namespace HAI

/-- ASCII lower-casing of one character, mirroring `str.lower()` on the
ASCII range (the classifier patterns are all ASCII). -/
def lowerChar (c : Char) : Char :=
  if 'A' ≤ c ∧ c ≤ 'Z' then Char.ofNat (c.toNat + 32) else c

/-- `text.lower()` on a character list. -/
def lowerStr (s : List Char) : List Char := s.map lowerChar

/-- All suffixes of `s` reachable from the front by skipping only
non-newline characters (including `s` itself): the candidate start points
for the next regex fragment after a `.*` gap, since `.` does not match a
newline under Python default flags. -/
def skipsNoNl : List Char → List (List Char)
  | [] => [[]]
  | c :: rest => (c :: rest) :: (if c = '\n' then [] else skipsNoNl rest)

/-- `chainMatch parts s` holds when the literal fragments `parts` occur in
order inside `s`, the first one after a newline-free gap from the front of
`s` and each later one after a newline-free gap from the end of the
previous fragment. This is `re.search` matching of
`p₁.*p₂.*…` once a start position inside `s` has been fixed. -/
def chainMatch : List (List Char) → List Char → Bool
  | [], _ => true
  | p :: ps, s => (skipsNoNl s).any fun t => p.isPrefixOf t && chainMatch ps (t.drop p.length)

/-- `re.search` of the fragment pattern `p₁.*p₂.*…` in `s`: the match may
start at any position of `s` (the scan before the first fragment may cross
newlines), later gaps are newline-free. -/
def reSearch (parts : List (List Char)) (s : List Char) : Bool :=
  match parts with
  | [] => true
  | p :: ps => s.tails.any fun t => p.isPrefixOf t && chainMatch ps (t.drop p.length)

/-- Python substring test `needle in hay` on character lists. -/
def containsSub (needle hay : List Char) : Bool :=
  hay.tails.any fun t => needle.isPrefixOf t

/-- Turn the fragment spelling of a `ChatService` regex (literal pieces
separated by `.*`) into its fragment list. -/
def pat (frags : List String) : List (List Char) := frags.map String.data

/-- The `save_memory` patterns of `ChatService.intent_patterns`. -/
def savePatterns : List (List (List Char)) :=
  [pat ["save", "memory"], pat ["want", "save", "memory"], pat ["keep", "memory"],
   pat ["remember", "this"], pat ["store", "memory"]]

/-- The `search_memory` patterns of `ChatService.intent_patterns`. -/
def searchPatterns : List (List (List Char)) :=
  [pat ["search", "memory"], pat ["find", "memory"], pat ["look", "for", "memory"],
   pat ["show", "memory"], pat ["show", "photos"], pat ["find", "photos"]]

/-- The `delete_memory` patterns of `ChatService.intent_patterns`. -/
def deletePatterns : List (List (List Char)) :=
  [pat ["delete", "memory"], pat ["remove", "memory"], pat ["don\x27t", "want", "keep"],
   pat ["delete", "photo"], pat ["remove", "photo"]]

/-- The `edit_memory` patterns of `ChatService.intent_patterns`. -/
def editPatterns : List (List (List Char)) :=
  [pat ["edit", "memory"], pat ["change", "memory"], pat ["update", "memory"],
   pat ["modify", "memory"], pat ["change", "description"]]

/-- The `update_name` patterns of `ChatService.intent_patterns`. -/
def updateNamePatterns : List (List (List Char)) :=
  [pat ["change", "name"], pat ["update", "name"], pat ["new", "name"],
   pat ["call", "me"], pat ["name", "should", "be"]]

/-- The `update_avatar` patterns of `ChatService.intent_patterns`. -/
def updateAvatarPatterns : List (List (List Char)) :=
  [pat ["change", "picture"], pat ["update", "avatar"], pat ["new", "profile"],
   pat ["change", "profile", "picture"], pat ["update", "profile"]]

/-- The `update_password` patterns of `ChatService.intent_patterns`. -/
def updatePasswordPatterns : List (List (List Char)) :=
  [pat ["change", "password"], pat ["update", "password"], pat ["new", "password"],
   pat ["reset", "password"], pat ["forgot", "password"]]

/-- `ChatService.intent_patterns` in Python dict insertion order (dicts
preserve insertion order, so iteration scans in exactly this order). -/
def intent_patterns : List (String × List (List (List Char))) :=
  [("save_memory", savePatterns), ("search_memory", searchPatterns),
   ("delete_memory", deletePatterns), ("edit_memory", editPatterns),
   ("update_name", updateNamePatterns), ("update_avatar", updateAvatarPatterns),
   ("update_password", updatePasswordPatterns)]

/-- The `for intent, patterns in self.intent_patterns.items()` loop body:
the first intent any of whose patterns `re.search`-matches the lower-cased
text, `none` when no pattern matches. -/
def scanTable (table : List (String × List (List (List Char)))) (tl : List Char) :
    Option String :=
  match table with
  | [] => none
  | (intent, pats) :: rest =>
    if pats.any fun p => reSearch p tl then some intent else scanTable rest tl

/-- The per-user conversation context dictionary: the only keys the
application ever stores are `expected_intent` and `memory_id`
(`app/api/chat.py`), each present or absent. -/
structure Ctx where
  expected_intent : Option String := none
  memory_id : Option String := none
  deriving Repr, DecidableEq

/-- `ChatService.detect_intent`. The `current_context` argument is `none`
for Python `None`; a context dict with neither key stored behaves like the
empty (falsy) dict. -/
def detect_intent (text : List Char) (current_context : Option Ctx) : String :=
  let text_lower := lowerStr text
  let tableScan := (scanTable intent_patterns text_lower).getD "chat"
  match current_context with
  | some c =>
    match c.expected_intent with
    | some e => e
    | none =>
      match c.memory_id with
      | some _ =>
        if containsSub "change".data text_lower || containsSub "edit".data text_lower
            || containsSub "update".data text_lower then "edit_memory"
        else if containsSub "delete".data text_lower
            || containsSub "remove".data text_lower then "delete_memory"
        else tableScan
      | none => tableScan
  | none => tableScan

/-! ## `app/utils/helpers.py`: message-id generation

`generate_message_id` reads the clock (`datetime.now().timestamp() * 1000`,
an integer millisecond count) and draws 4 random bytes
(`secrets.token_hex(4)`, rendered as 8 lower-case hex digits). Both
environment inputs are passed explicitly: `timestampMs` is the millisecond
timestamp a call observes and `rand < 2^32` is the 32-bit value of the 4
random bytes the call draws. -/

/-- The character for digit `n` (`0`–`9` then `a`–`f`), as Python renders
decimal and lower-case hexadecimal digits. -/
def digitChar : Nat → Char
  | 0 => '0' | 1 => '1' | 2 => '2' | 3 => '3' | 4 => '4'
  | 5 => '5' | 6 => '6' | 7 => '7' | 8 => '8' | 9 => '9'
  | 10 => 'a' | 11 => 'b' | 12 => 'c' | 13 => 'd' | 14 => 'e' | _ => 'f'

/-- Python `str(n)` for a natural number: its decimal digits. -/
def natToDec (n : Nat) : List Char :=
  if n = 0 then ['0'] else ((Nat.digits 10 n).map digitChar).reverse

/-- Python `secrets.token_hex(4)` output for the 32-bit draw `r`: the 8
zero-padded lower-case hex digits of `r`. -/
def hex8 (r : Nat) : List Char :=
  ((Nat.digits 16 r ++ List.replicate (8 - (Nat.digits 16 r).length) 0).map digitChar).reverse

/-- `generate_message_id`: the f-string `"{prefix}-{timestamp}-{random_part}"`
with `timestamp` the observed millisecond clock and `random_part` the 8 hex
digits of the 4 random bytes drawn by this call. -/
def generate_message_id (pre : String) (timestampMs : Nat) (rand : Nat) : String :=
  ⟨pre.data ++ '-' :: (natToDec timestampMs ++ '-' :: hex8 rand)⟩

/-- `generate_ai_message_id`: `generate_message_id("ai")`. -/
def generate_ai_message_id (timestampMs : Nat) (rand : Nat) : String :=
  generate_message_id "ai" timestampMs rand

/-! ## `app/core/llm.py`: `MockLLMService` -/

/-- A metadata value stored in a response's `meta` dict: the conversation
layer stores booleans, strings, optional strings and string lists there. -/
inductive MetaVal where
  | b (v : Bool)
  | s (v : String)
  | optS (v : Option String)
  | strs (v : List String)
  deriving Repr, DecidableEq

/-- Python dict assignment `d[k] = v`: update the key in place when present,
append it otherwise. -/
def assocSet (l : List (String × MetaVal)) (k : String) (v : MetaVal) :
    List (String × MetaVal) :=
  match l with
  | [] => [(k, v)]
  | (k1, v1) :: rest =>
    if k1 = k then (k, v) :: rest else (k1, v1) :: assocSet rest k v

/-- Python `d.update(entries)`: assign every entry in order. -/
def assocUpdate (l entries : List (String × MetaVal)) : List (String × MetaVal) :=
  entries.foldl (fun acc kv => assocSet acc kv.1 kv.2) l

/-- A template of `MockLLMService.intent_responses`: every intent maps to a
single string except `chat`, which maps to a list of three variants. -/
inductive Template where
  | single (s : String)
  | variants (vs : List String)
  deriving Repr, DecidableEq

/-- The three `chat` variant strings of `MockLLMService.intent_responses`. -/
def chatVariants : List String :=
  ["Hello! How can I help you today?",
   "Hi there! What can I do for you?",
   "Greetings! I\x27m here to assist you."]

/-- `MockLLMService.intent_responses`. -/
def intent_responses : List (String × Template) :=
  [("chat", .variants chatVariants),
   ("save_memory", .single "Of course. Please upload a photo you\x27d like to save as a memory."),
   ("add_description", .single "Your photo is ready. Whenever you\x27re comfortable, you can tell me a few simple words about this memory."),
   ("memory_saved", .single "That\x27s a beautiful memory. I\x27ve saved it for you, and you can revisit or edit it anytime."),
   ("search_memory", .single "Here are the memories I found:"),
   ("confirm_delete", .single "Of course. Are you sure you want to delete this? You can delete just the photo or the entire memory."),
   ("memory_deleted", .single "Alright, I\x27ve deleted this photo for you. You can always add it again later if you wish."),
   ("edit_memory", .single "Absolutely-you can change anything you want. What would you like to update: the title, the description?"),
   ("ask_new_value", .single "What would you like it to say instead?"),
   ("memory_updated", .single "That\x27s beautiful. I\x27ve updated your memory exactly as you described it. You can edit it again anytime-you\x27re always in control."),
   ("update_name", .single "Of course. Your current name is \x7bcurrent_name\x7d. What would you like it to be?"),
   ("name_changed", .single "Got it-I\x27ve updated your name to \x7bnew_name\x7d. You can change it again anytime if you wish."),
   ("update_avatar", .single "Great. When you\x27re ready, please choose a photo from your gallery. I\x27ll only change your avatar after you confirm."),
   ("avatar_updated", .single "All done. Your profile photo has been updated-you can always change it again whenever you like."),
   ("update_password", .single "No problem. To keep your account safe, I\x27ll guide you step by step. Please enter your new password."),
   ("confirm_password", .single "Great. Just one more step-please type it again to confirm."),
   ("password_updated", .single "Perfect. Your password has been updated safely. If you ever forget it, I\x27ll help you recover it. You\x27re doing everything correctly—no need to worry.")]

/-- The `user_data` argument of `generate_response`: `None`, or a dict that
may carry `current_name`. -/
structure UserData where
  current_name : Option String := none
  deriving Repr, DecidableEq

/-- The `context` argument of `generate_response`: a dict that may carry
`memory_id`, `image_url` (passed by the save flow, never read here) and
`new_name` (read for slot substitution). -/
structure GenCtx where
  memory_id : Option String := none
  image_url : Option String := none
  new_name : Option String := none
  deriving Repr, DecidableEq

/-- An outbound `ChatMessageResponse` produced by `generate_response`. -/
structure Response where
  msgId : String
  sender : String
  intent : String
  content : String
  meta : List (String × MetaVal)
  timestamp : Int
  deriving Repr, DecidableEq

/-- `MockLLMService.generate_response`. The fresh message id and the clock
reading are passed explicitly. Content is looked up in `intent_responses`;
only a *string* template is rendered (`isinstance(content_template, str)`),
so the `chat` variant list leaves content `""`. Slot substitution replaces
every occurrence, as Python `str.replace` does. -/
def generate_response (intent : String) (user_data : Option UserData)
    (context : Option GenCtx) (msg_id : String) (timestamp : Int) : Response :=
  let content :=
    match List.lookup intent intent_responses with
    | some (.single t) =>
      let c1 := match user_data with
        | some u => match u.current_name with
          | some n => t.replace "\x7bcurrent_name\x7d" n
          | none => t
        | none => t
      match context with
      | some c => match c.new_name with
        | some n => c1.replace "\x7bnew_name\x7d" n
        | none => c1
      | none => c1
    | _ => ""
  let meta : List (String × MetaVal) :=
    if intent = "save_memory" then [("needImage", .b true)]
    else if intent = "confirm_delete" then [("options", .strs ["photo", "memory"])]
    else if intent = "edit_memory" then [("fields", .strs ["title", "description"])]
    else []
  { msgId := msg_id, sender := "ai", intent := intent, content := content,
    meta := meta, timestamp := timestamp }

/-! ## `app/api/chat.py`: the per-turn context transition -/

/-- Python truthiness of an `Optional[str]` value: present and non-empty. -/
def truthy (o : Option String) : Bool :=
  match o with
  | some s => s ≠ ""
  | none => false

/-- `conversation_contexts`, the in-memory per-user context store, as an
association list keyed by user id (each key occurs at most once). -/
abbrev CtxStore := List (String × Ctx)

/-- Dict lookup `conversation_contexts.get(uid)`. -/
def storeGet (s : CtxStore) (uid : String) : Option Ctx := List.lookup uid s

/-- Dict assignment `conversation_contexts[uid] = c`. -/
def storeSet (s : CtxStore) (uid : String) (c : Ctx) : CtxStore :=
  match s with
  | [] => [(uid, c)]
  | (k, v) :: rest => if k = uid then (uid, c) :: rest else (k, v) :: storeSet rest uid c

/-- Dict deletion `del conversation_contexts[uid]` (guarded by a membership
check in the source, so deleting an absent key never occurs; filtering is
the same map). -/
def storeDel (s : CtxStore) (uid : String) : CtxStore :=
  s.filter fun kv => ¬ kv.1 = uid

/-- The response intents that arm a continuation in `send_chat_message`. -/
def continuationIntents : List String :=
  ["save_memory", "add_description", "edit_memory", "confirm_delete", "update_password"]

/-- The response intents that complete a flow in `send_chat_message`. -/
def completionIntents : List String :=
  ["memory_saved", "memory_deleted", "memory_updated", "name_changed",
   "avatar_updated", "password_updated"]

/-- The context-update step of `send_chat_message`, applied after a
successfully processed turn: continuation intents arm
`expected_intent` (retaining a truthy inbound `memoryId`), completion
intents delete the user's entry, anything else leaves the store untouched. -/
def update_contexts (store : CtxStore) (uid : String) (respIntent : String)
    (reqMemoryId : Option String) : CtxStore :=
  let user_context := (storeGet store uid).getD {}
  if respIntent ∈ continuationIntents then
    let c1 := { user_context with expected_intent := some respIntent }
    let c2 := if truthy reqMemoryId then { c1 with memory_id := reqMemoryId } else c1
    storeSet store uid c2
  else if respIntent ∈ completionIntents then
    storeDel store uid
  else store

/-! ## `app/utils/helpers.py`: `extract_labels_from_text` -/

/-- Python `\s` on the ASCII range. -/
def isPySpace (c : Char) : Bool :=
  c = ' ' || c = '\t' || c = '\n' || c = '\r' || c = '\x0b' || c = '\x0c'

/-- Python `\w` on the ASCII range. -/
def isWordChar (c : Char) : Bool :=
  ('a' ≤ c && c ≤ 'z') || ('A' ≤ c && c ≤ 'Z') || ('0' ≤ c && c ≤ '9') || c = '_'

/-- `str.split()` with no separator: split on whitespace runs, no empty
words. `cur` holds the characters of the word in progress, reversed. -/
def splitWordsAux (cur : List Char) : List Char → List (List Char)
  | [] => if cur = [] then [] else [cur.reverse]
  | c :: rest =>
    if isPySpace c then
      if cur = [] then splitWordsAux [] rest else cur.reverse :: splitWordsAux [] rest
    else splitWordsAux (c :: cur) rest

/-- The stop-word set of `extract_labels_from_text`. -/
def stopWords : List (List Char) :=
  (["the", "a", "an", "and", "or", "but", "in", "on", "at", "to",
    "for", "of", "with", "by", "as", "is", "are", "was", "were",
    "be", "been", "being", "have", "has", "had", "do", "does", "did",
    "will", "would", "should", "could", "can", "may", "might", "must"].map String.data)

/-- `extract_labels_from_text`: lower-case, replace non-word non-space
characters by a space, split into words, keep words longer than 3 that are
not stop words, de-duplicate, keep at most 10. Python materialises the
de-duplicated list through `list(set(...))`, whose order is unspecified;
this model keeps first occurrences. -/
def extract_labels_from_text (text : List Char) : List String :=
  let text_clean := (lowerStr text).map fun c => if isWordChar c || isPySpace c then c else ' '
  let words := splitWordsAux [] text_clean
  let keywords := words.filter fun w => 3 < w.length && !stopWords.contains w
  ((keywords.eraseDups).take 10).map fun w => ⟨w⟩

/-! ## `app/models/memory.py` and `app/crud/memory.py`

The `Memory` row model carries the columns the conversation layer reads or
writes. The server-defaulted timestamp columns (`memory_date`,
`created_at`, `updated_at`) and `is_favorite` are set by the database and
never consulted by the chat flow; `created_at` ordering is modelled by row
insertion order (rows are appended on create, so insertion order is
creation order). -/

structure Memory where
  id : String
  user_id : String
  image_url : Option String := none
  description : Option String := none
  title : Option String := none
  labels : List String := []
  is_deleted : Bool := false
  deriving Repr, DecidableEq

/-- Python truthiness of an `Optional[List[str]]` value. -/
def listTruthy (o : Option (List String)) : Bool :=
  match o with
  | some l => l ≠ []
  | none => false

/-- `MemoryCRUD.get_by_id`: first row with the id, excluding soft-deleted
rows unless `include_deleted`. -/
def memory_get_by_id (store : List Memory) (memory_id : String)
    (include_deleted : Bool := false) : Option Memory :=
  (store.filter fun m => m.id == memory_id && (include_deleted || !m.is_deleted)).head?

/-- `MemoryCRUD.create`: when a truthy description comes without truthy
labels, labels are extracted from the description; the row is appended
(`db.add`) with `labels or []` and the database defaults for the remaining
columns. The fresh row id (a `mem-`-prefixed uuid column default) is passed
in as `newId`. -/
def memory_create (store : List Memory) (newId user_id : String)
    (image_url description title : Option String) (labels : Option (List String)) :
    List Memory × Memory :=
  let labels1 :=
    match description with
    | some d => if d ≠ "" && !listTruthy labels then some (extract_labels_from_text d.data)
                else labels
    | none => labels
  let memory : Memory :=
    { id := newId, user_id := user_id, image_url := image_url,
      description := description, title := title, labels := labels1.getD [] }
  (store ++ [memory], memory)

/-- Case-insensitive containment `column ILIKE %q%` for a nullable column
(`NULL` matches nothing); `ql` is already lower-cased. -/
def ilike (column : Option String) (ql : List Char) : Bool :=
  match column with
  | some s => containsSub ql (lowerStr s.data)
  | none => false

/-- `MemoryCRUD.search`: the user's live rows whose description or title
contains the lower-cased query or whose labels contain it exactly, newest
creation first, at most `limit`. -/
def memory_search (store : List Memory) (user_id q : String) (limit : Nat) :
    List Memory :=
  let ql := lowerStr q.data
  ((store.filter fun m =>
      m.user_id == user_id && !m.is_deleted &&
      (ilike m.description ql || ilike m.title ql ||
        m.labels.contains (String.mk ql))).reverse).take limit

/-- `Memory.to_dict` restricted to the modelled columns (the omitted
server-timestamp columns are rendered from database state the chat flow
never writes). -/
def memory_to_dict (m : Memory) : List (String × MetaVal) :=
  [("id", .s m.id), ("user_id", .s m.user_id), ("image_url", .optS m.image_url),
   ("description", .optS m.description), ("title", .optS m.title),
   ("labels", .strs m.labels), ("is_deleted", .b m.is_deleted)]

/-! ## `app/services/chat.py`: the intent handlers and the orchestrator

Every handler persists the user message and its own response through
`MessageCRUD.create`; persistence is modelled separately on the message
table (below) and does not influence the produced response or the memory
store, so the handlers here return the response (plus the updated memory
store where they create rows). Fresh environment values a turn consumes —
the new memory row id, the response message id and the clock reading — are
passed explicitly. -/

/-- The inbound `ChatMessageRequest` (the unused free-form `extra` mapping
is omitted). -/
structure ChatReq where
  text : List Char
  imageUrl : Option String := none
  memoryId : Option String := none
  deriving Repr, DecidableEq

/-- A `users` table row as read by the chat flow. -/
structure UserRec where
  id : String
  name : String
  deriving Repr, DecidableEq

/-- `UserCRUD.get_by_id`. -/
def user_get_by_id (users : List UserRec) (uid : String) : Option UserRec :=
  users.find? fun u => u.id == uid

/-- The `MemoryNotFoundError` raised by `_handle_edit_memory`. -/
inductive ChatError where
  | memoryNotFound (detail : String)
  deriving Repr, DecidableEq

/-- The fresh values one turn draws from the environment. -/
structure Fresh where
  newMemoryId : String
  msgId : String
  timestamp : Int
  deriving Repr, DecidableEq

/-- `ChatService._handle_normal_chat`. -/
def handle_normal_chat (users : List UserRec) (uid : String) (msg_id : String)
    (ts : Int) : Response :=
  let user_data : Option UserData :=
    match user_get_by_id users uid with
    | some u => some { current_name := some u.name }
    | none => some {}
  generate_response "chat" user_data none msg_id ts

/-- `ChatService._handle_save_memory`: with a truthy `imageUrl` create a
memory row carrying only the image and answer `add_description` with the
new row id and image url added to the metadata; otherwise answer
`save_memory` (the photo re-prompt). -/
def handle_save_memory (memories : List Memory) (uid : String) (req : ChatReq)
    (newMemId msg_id : String) (ts : Int) : List Memory × Response :=
  match req.imageUrl with
  | some url =>
    if url = "" then (memories, generate_response "save_memory" none none msg_id ts)
    else
      let created := memory_create memories newMemId uid (some url) none none none
      let r0 := generate_response "add_description" none
        (some { memory_id := some created.2.id, image_url := some url }) msg_id ts
      (created.1,
       { r0 with meta := assocSet (assocSet r0.meta "memoryId" (.s created.2.id))
                   "imageUrl" (.s url) })
  | none => (memories, generate_response "save_memory" none none msg_id ts)

/-- `ChatService._handle_search_memory`. -/
def handle_search_memory (memories : List Memory) (uid : String) (req : ChatReq)
    (msg_id : String) (ts : Int) : Response :=
  let search_keywords := lowerStr req.text
  let found := memory_search memories uid (String.mk search_keywords) 5
  let r0 := generate_response "search_memory" none none msg_id ts
  match found with
  | [] => r0
  | m :: _ => { r0 with meta := assocUpdate r0.meta (memory_to_dict m) }

/-- `ChatService._handle_delete_memory`: always a `confirm_delete`
response; a truthy `memoryId` is echoed into the metadata, and the memory
store is never consulted. -/
def handle_delete_memory (req : ChatReq) (msg_id : String) (ts : Int) : Response :=
  if ¬ truthy req.memoryId then generate_response "confirm_delete" none none msg_id ts
  else
    let r0 := generate_response "confirm_delete" none none msg_id ts
    { r0 with meta := assocSet r0.meta "memoryId" (.s (req.memoryId.getD "")) }

/-- `ChatService._handle_edit_memory`: without a truthy `memoryId` an
`edit_memory` prompt; with one, the memory is looked up and
`MemoryNotFoundError` is raised when it does not exist. -/
def handle_edit_memory (memories : List Memory) (req : ChatReq) (msg_id : String)
    (ts : Int) : Except ChatError Response :=
  if ¬ truthy req.memoryId then .ok (generate_response "edit_memory" none none msg_id ts)
  else
    match memory_get_by_id memories (req.memoryId.getD "") with
    | none => .error (.memoryNotFound "Memory not found")
    | some _ =>
      let r0 := generate_response "edit_memory" none none msg_id ts
      .ok { r0 with meta := assocSet r0.meta "memoryId" (.s (req.memoryId.getD "")) }

/-- `ChatService._handle_update_name`. -/
def handle_update_name (users : List UserRec) (uid : String) (msg_id : String)
    (ts : Int) : Response :=
  let user_data : Option UserData :=
    match user_get_by_id users uid with
    | some u => some { current_name := some u.name }
    | none => some { current_name := some "User" }
  generate_response "update_name" user_data none msg_id ts

/-- `ChatService._handle_update_avatar`. -/
def handle_update_avatar (msg_id : String) (ts : Int) : Response :=
  generate_response "update_avatar" none none msg_id ts

/-- `ChatService._handle_update_password`. -/
def handle_update_password (msg_id : String) (ts : Int) : Response :=
  generate_response "update_password" none none msg_id ts

/-- `ChatService.process_message`: classify, then dispatch on the detected
intent; every intent outside the seven dispatched ones falls to
`_handle_normal_chat`. Only the edit path can raise. -/
def process_message (users : List UserRec) (memories : List Memory) (uid : String)
    (req : ChatReq) (current_context : Option Ctx) (fr : Fresh) :
    Except ChatError (List Memory × Response) :=
  let intent := detect_intent req.text current_context
  if intent = "save_memory" then
    .ok (handle_save_memory memories uid req fr.newMemoryId fr.msgId fr.timestamp)
  else if intent = "search_memory" then
    .ok (memories, handle_search_memory memories uid req fr.msgId fr.timestamp)
  else if intent = "delete_memory" then
    .ok (memories, handle_delete_memory req fr.msgId fr.timestamp)
  else if intent = "edit_memory" then
    match handle_edit_memory memories req fr.msgId fr.timestamp with
    | .ok r => .ok (memories, r)
    | .error e => .error e
  else if intent = "update_name" then
    .ok (memories, handle_update_name users uid fr.msgId fr.timestamp)
  else if intent = "update_avatar" then
    .ok (memories, handle_update_avatar fr.msgId fr.timestamp)
  else if intent = "update_password" then
    .ok (memories, handle_update_password fr.msgId fr.timestamp)
  else
    .ok (memories, handle_normal_chat users uid fr.msgId fr.timestamp)

/-- The `send_chat_message` endpoint body: fetch the caller's context (the
empty dict when absent), process the message, and on success apply the
context transition; an exception raised while processing reaches the
`except` clause before any context write, leaving the store untouched. -/
def send_chat_message (contexts : CtxStore) (users : List UserRec)
    (memories : List Memory) (uid : String) (req : ChatReq) (fr : Fresh) :
    CtxStore × List Memory × Except ChatError Response :=
  let user_context := (storeGet contexts uid).getD {}
  match process_message users memories uid req (some user_context) fr with
  | .error e => (contexts, memories, .error e)
  | .ok (mem2, resp) =>
    (update_contexts contexts uid resp.intent req.memoryId, mem2, .ok resp)

/-! ## `app/models/message.py` and `app/crud/message.py` -/

/-- A `messages` table row as the conversation layer writes and reads it
(the nullable `memory_id` link and the unused `sequence` column are
omitted; `timestamp` is the server-defaulted creation instant, modelled as
a comparable natural). -/
structure MessageRec where
  user_id : String
  msgId : String
  sender : String
  intent : String
  content : String
  meta : List (String × MetaVal)
  timestamp : Nat
  deriving Repr, DecidableEq

/-- The `ORDER BY timestamp DESC` relation. -/
def tsGE (a b : MessageRec) : Prop := b.timestamp ≤ a.timestamp

instance : DecidableRel tsGE := fun a b => Nat.decLe b.timestamp a.timestamp

instance : IsTotal MessageRec tsGE := ⟨fun a b => Nat.le_total b.timestamp a.timestamp⟩

instance : IsTrans MessageRec tsGE :=
  ⟨fun _ _ _ h1 h2 => Nat.le_trans h2 h1⟩

/-- `MessageCRUD.get_conversation_history`: the user's rows ordered newest
first (`ORDER BY timestamp DESC`, modelled as a sort by the total relation
`tsGE`), truncated to `limit`, then reversed so the newest comes last. -/
def get_conversation_history (db : List MessageRec) (user_id : String)
    (limit : Nat) : List MessageRec :=
  (((db.filter fun m => m.user_id == user_id).insertionSort tsGE).take limit).reverse

/-- The user's full persisted history in ascending timestamp order — the
reference order for the history claim. -/
def history_asc (db : List MessageRec) (user_id : String) : List MessageRec :=
  ((db.filter fun m => m.user_id == user_id).insertionSort tsGE).reverse

/-! ## Helper lemmas shared by the claim theorems -/

/-- With `expected_intent` present, `detect_intent` returns it before any
text inspection. -/
lemma detect_intent_of_expected {text : List Char} {c : Ctx} {i : String}
    (h : c.expected_intent = some i) : detect_intent text (some c) = i := by
  simp [detect_intent, h]

/-- The table-scan fallback of the classifier, written as the spec words
it: scan `save_memory, search_memory, delete_memory, edit_memory,
update_name, update_avatar, update_password` in this order, return the
first intent any of whose patterns matches, else `chat`. -/
def spec_table_scan (tl : List Char) : String :=
  if savePatterns.any fun p => reSearch p tl then "save_memory"
  else if searchPatterns.any fun p => reSearch p tl then "search_memory"
  else if deletePatterns.any fun p => reSearch p tl then "delete_memory"
  else if editPatterns.any fun p => reSearch p tl then "edit_memory"
  else if updateNamePatterns.any fun p => reSearch p tl then "update_name"
  else if updateAvatarPatterns.any fun p => reSearch p tl then "update_avatar"
  else if updatePasswordPatterns.any fun p => reSearch p tl then "update_password"
  else "chat"

/-- The code's dict iteration computes exactly the spec-ordered scan. -/
lemma scanTable_eq_spec (tl : List Char) :
    (scanTable intent_patterns tl).getD "chat" = spec_table_scan tl := by
  simp only [intent_patterns, scanTable, spec_table_scan]
  split_ifs <;> rfl

/-- When no pattern of any table row matches, the scan yields nothing. -/
lemma scanTable_eq_none {table : List (String × List (List (List Char)))}
    {tl : List Char} (h : ∀ pr ∈ table, pr.2.any (fun p => reSearch p tl) = false) :
    scanTable table tl = none := by
  induction table with
  | nil => rfl
  | cons hd rest ih =>
    obtain ⟨i, pats⟩ := hd
    simp only [scanTable, h ⟨i, pats⟩ (List.mem_cons_self _ _)]
    exact ih fun pr hpr => h pr (List.mem_cons_of_mem _ hpr)

/-! ## Claim theorems -/

/-- C1: for every text and every conversation context whose
`expected_intent` is set, `detect_intent` returns exactly that expected
intent, regardless of the text; in particular a context with
`expected_intent = confirm_delete` classifies any text as
`confirm_delete`. -/
theorem detect_intent_expected_override (text : List Char) (c : Ctx) (i : String)
    (h : c.expected_intent = some i) : detect_intent text (some c) = i :=
  detect_intent_of_expected h

/-- Witness for C1: a text that would otherwise pattern-match
`delete_memory` is classified `confirm_delete` under the armed context. -/
theorem detect_intent_expected_override_witness :
    detect_intent "yes, delete the photo".data
      (some { expected_intent := some "confirm_delete" }) = "confirm_delete" :=
  detect_intent_expected_override _ _ _ rfl

/-- C3: with no `expected_intent` but a `memory_id` in context, the
classifier returns `edit_memory` when the lower-cased text contains
`change`, `edit` or `update`, and otherwise `delete_memory` when it
contains `delete` or `remove` — before the generic pattern table is
consulted (the result does not depend on the table). -/
theorem detect_intent_memory_focus (text : List Char) (c : Ctx) (m : String)
    (h1 : c.expected_intent = none) (h2 : c.memory_id = some m) :
    ((containsSub "change".data (lowerStr text) || containsSub "edit".data (lowerStr text)
        || containsSub "update".data (lowerStr text)) = true →
      detect_intent text (some c) = "edit_memory") ∧
    ((containsSub "change".data (lowerStr text) || containsSub "edit".data (lowerStr text)
        || containsSub "update".data (lowerStr text)) = false →
      (containsSub "delete".data (lowerStr text)
        || containsSub "remove".data (lowerStr text)) = true →
      detect_intent text (some c) = "delete_memory") := by
  constructor
  · intro hx
    simp [detect_intent, h1, h2, hx]
  · intro hx hy
    simp [detect_intent, h1, h2, hx, hy]

/-- Witness for C3: `classify("I want to delete this photo")` with a memory
in focus yields `delete_memory` through the in-focus branch. -/
theorem detect_intent_memory_focus_witness :
    detect_intent "I want to delete this photo".data
      (some { memory_id := some "mem-1" }) = "delete_memory" :=
  (detect_intent_memory_focus "I want to delete this photo".data
      { memory_id := some "mem-1" } "mem-1" rfl rfl).2 (by decide) (by decide)

/-- C4: with neither `expected_intent` nor `memory_id` set, `detect_intent`
equals the ordered table scan `save_memory, search_memory, delete_memory,
edit_memory, update_name, update_avatar, update_password` returning the
first pair any of whose patterns matches; when nothing matches it is the
total `chat` fallback; and `classify("please search memory of my trip")`
is `search_memory`. -/
theorem detect_intent_table_order :
    (∀ (text : List Char) (c : Ctx), c.expected_intent = none → c.memory_id = none →
      detect_intent text (some c) = spec_table_scan (lowerStr text) ∧
      detect_intent text none = spec_table_scan (lowerStr text)) ∧
    (∀ text : List Char,
      (∀ pr ∈ intent_patterns, ∀ p ∈ pr.2, reSearch p (lowerStr text) = false) →
      detect_intent text none = "chat") ∧
    detect_intent "please search memory of my trip".data none = "search_memory" := by
  refine ⟨fun text c h1 h2 => ?_, fun text h => ?_, ?_⟩
  · constructor
    · simp only [detect_intent, h1, h2]
      exact scanTable_eq_spec _
    · simp only [detect_intent]
      exact scanTable_eq_spec _
  · have hnone : scanTable intent_patterns (lowerStr text) = none :=
      scanTable_eq_none fun pr hpr => by
        rw [List.any_eq_false]
        intro p hp
        simp [h pr hpr p hp]
    simp [detect_intent, hnone]
  · decide

/-- Witness for C4: the general part applied to the empty context dict at a
concrete text, next to the concrete classification example. -/
theorem detect_intent_table_order_witness :
    detect_intent "I want to save a memory".data (some {}) =
      spec_table_scan (lowerStr "I want to save a memory".data) ∧
    detect_intent "please search memory of my trip".data none = "search_memory" :=
  ⟨(detect_intent_table_order.1 "I want to save a memory".data {} rfl rfl).1,
   detect_intent_table_order.2.2⟩

/-- Lookup after dict assignment at the assigned key. -/
lemma storeGet_storeSet_self (s : CtxStore) (uid : String) (c : Ctx) :
    storeGet (storeSet s uid c) uid = some c := by
  induction s with
  | nil => simp [storeSet, storeGet, List.lookup]
  | cons hd rest ih =>
    obtain ⟨k, v⟩ := hd
    by_cases hk : k = uid
    · simp [storeSet, storeGet, List.lookup, hk]
    · have hne : (uid == k) = false := by
        simp [beq_eq_false_iff_ne]
        exact fun he => hk he.symm
      simpa [storeSet, storeGet, List.lookup, hk, hne] using ih

/-- Lookup after dict deletion at the deleted key. -/
lemma storeGet_storeDel_self (s : CtxStore) (uid : String) :
    storeGet (storeDel s uid) uid = none := by
  induction s with
  | nil => rfl
  | cons hd rest ih =>
    obtain ⟨k, v⟩ := hd
    by_cases hk : k = uid
    · simpa [storeDel, storeGet, List.lookup, hk] using ih
    · have hne : (uid == k) = false := by
        simp [beq_eq_false_iff_ne]
        exact fun he => hk he.symm
      simpa [storeDel, storeGet, List.lookup, hk, hne] using ih

/-- C2: the per-turn context transition depends only on the produced
response's intent: a continuation intent (`save_memory, add_description,
edit_memory, confirm_delete, update_password`) stores a context whose
`expected_intent` is that intent, retaining a `memoryId` carried by the
inbound message (and otherwise the previously stored `memory_id`); a
completion intent (`memory_saved, memory_deleted, memory_updated,
name_changed, avatar_updated, password_updated`) deletes the user's
entry; any other intent leaves the store untouched. -/
theorem context_transition_rule (store : CtxStore) (uid respIntent : String)
    (reqMem : Option String) :
    (respIntent ∈ continuationIntents →
      storeGet (update_contexts store uid respIntent reqMem) uid =
        some { expected_intent := some respIntent,
               memory_id := if truthy reqMem then reqMem
                            else ((storeGet store uid).getD {}).memory_id }) ∧
    (respIntent ∈ completionIntents →
      storeGet (update_contexts store uid respIntent reqMem) uid = none) ∧
    (respIntent ∉ continuationIntents → respIntent ∉ completionIntents →
      update_contexts store uid respIntent reqMem = store) := by
  refine ⟨fun h => ?_, fun h => ?_, fun h1 h2 => ?_⟩
  · by_cases ht : truthy reqMem = true
    · simp [update_contexts, h, ht, storeGet_storeSet_self]
    · simp [update_contexts, h, ht, storeGet_storeSet_self]
  · have hnc : respIntent ∉ continuationIntents := by
      simp only [completionIntents, List.mem_cons, List.mem_singleton,
        List.not_mem_nil, or_false] at h
      rcases h with rfl | rfl | rfl | rfl | rfl | rfl <;> decide
    simp [update_contexts, h, hnc, storeGet_storeDel_self]
  · simp [update_contexts, h1, h2]

/-- Witness for C2: a `confirm_delete` response with an inbound `memoryId`
arms the context with both; a `memory_saved` response deletes the entry;
a `chat` response changes nothing. -/
theorem context_transition_rule_witness :
    storeGet (update_contexts [] "u1" "confirm_delete" (some "mem-9")) "u1" =
      some { expected_intent := some "confirm_delete", memory_id := some "mem-9" } ∧
    storeGet (update_contexts [("u1", { expected_intent := some "add_description" })]
        "u1" "memory_saved" none) "u1" = none ∧
    update_contexts [("u1", { expected_intent := some "add_description" })]
        "u1" "chat" none = [("u1", { expected_intent := some "add_description" })] := by
  refine ⟨?_, ?_, ?_⟩
  · have h := (context_transition_rule [] "u1" "confirm_delete" (some "mem-9")).1
      (by decide)
    simpa using h
  · exact (context_transition_rule _ "u1" "memory_saved" none).2.1 (by decide)
  · exact (context_transition_rule _ "u1" "chat" none).2.2 (by decide) (by decide)

/-- C5: a `save_memory` turn without an image answers `save_memory` again
(the photo re-prompt, so the same continuation re-arms) with
`meta.needImage = true` and creates nothing; with an image it appends a
memory row carrying only that image (no title, description or labels) and
answers `add_description` with the new row id and the image URL in the
metadata. -/
theorem save_memory_handler_rule (memories : List Memory) (uid : String)
    (req : ChatReq) (newMemId msg_id : String) (ts : Int) :
    (truthy req.imageUrl = false →
      handle_save_memory memories uid req newMemId msg_id ts =
        (memories, generate_response "save_memory" none none msg_id ts) ∧
      (generate_response "save_memory" none none msg_id ts).intent = "save_memory" ∧
      List.lookup "needImage"
        (generate_response "save_memory" none none msg_id ts).meta = some (.b true)) ∧
    (∀ url : String, req.imageUrl = some url → url ≠ "" →
      (handle_save_memory memories uid req newMemId msg_id ts).1 =
        memories ++ [{ id := newMemId, user_id := uid, image_url := some url }] ∧
      (handle_save_memory memories uid req newMemId msg_id ts).2.intent =
        "add_description" ∧
      List.lookup "memoryId"
        (handle_save_memory memories uid req newMemId msg_id ts).2.meta =
        some (.s newMemId) ∧
      List.lookup "imageUrl"
        (handle_save_memory memories uid req newMemId msg_id ts).2.meta =
        some (.s url)) := by
  constructor
  · intro ht
    refine ⟨?_, rfl, rfl⟩
    rcases hiu : req.imageUrl with _ | url
    · simp [handle_save_memory, hiu]
    · rw [hiu] at ht
      have hurl : url = "" := by simpa [truthy] using ht
      subst hurl
      simp [handle_save_memory, hiu]
  · intro url h hne
    have hsm : handle_save_memory memories uid req newMemId msg_id ts =
        (memories ++ [{ id := newMemId, user_id := uid, image_url := some url }],
         { generate_response "add_description" none
             (some { memory_id := some newMemId, image_url := some url }) msg_id ts with
           meta := [("memoryId", .s newMemId), ("imageUrl", .s url)] }) := by
      simp [handle_save_memory, h, hne, memory_create, assocSet, generate_response]
    rw [hsm]
    exact ⟨rfl, rfl, rfl, rfl⟩

/-- Witness for C5: both branches at concrete inputs. -/
theorem save_memory_handler_rule_witness :
    handle_save_memory [] "u1" { text := "save a memory please".data } "mem-a" "ai-1" 0 =
      ([], generate_response "save_memory" none none "ai-1" 0) ∧
    (handle_save_memory [] "u1"
        { text := "here".data, imageUrl := some "/u/1.jpg" } "mem-a" "ai-2" 0).1 =
      [{ id := "mem-a", user_id := "u1", image_url := some "/u/1.jpg" }] ∧
    (handle_save_memory [] "u1"
        { text := "here".data, imageUrl := some "/u/1.jpg" } "mem-a" "ai-2" 0).2.intent =
      "add_description" :=
  ⟨((save_memory_handler_rule [] "u1" { text := "save a memory please".data }
      "mem-a" "ai-1" 0).1 rfl).1,
   ((save_memory_handler_rule [] "u1"
      { text := "here".data, imageUrl := some "/u/1.jpg" } "mem-a" "ai-2" 0).2
      "/u/1.jpg" rfl (by decide)).1,
   ((save_memory_handler_rule [] "u1"
      { text := "here".data, imageUrl := some "/u/1.jpg" } "mem-a" "ai-2" 0).2
      "/u/1.jpg" rfl (by decide)).2.1⟩

/-- Counterexample for C6 as stated: a `delete_memory` turn whose resolved
`memoryId` names no existing memory still succeeds with a `confirm_delete`
response — the delete handler never looks the memory up, so no not-found
error is raised there. -/
theorem delete_turn_no_notfound_counterexample :
    memory_get_by_id [] "mem-x" = none ∧
    process_message [] [] "u1"
      { text := "please delete this memory".data, memoryId := some "mem-x" } none
      ⟨"mem-new", "ai-1", 0⟩ =
      .ok ([], { msgId := "ai-1", sender := "ai", intent := "confirm_delete",
                 content := "Of course. Are you sure you want to delete this? You can delete just the photo or the entire memory.",
                 meta := [("options", .strs ["photo", "memory"]), ("memoryId", .s "mem-x")],
                 timestamp := 0 }) := by
  constructor
  · rfl
  · rfl

/-- C6 amended: a `delete_memory` turn always answers `confirm_delete`
without consulting the memory store (without a truthy `memoryId` it is the
bare prompt); an `edit_memory` turn without a truthy `memoryId` answers the
`edit_memory` prompt, and with one it looks the memory up and fails with
the not-found error when it does not exist; a failing turn reaches the
endpoint's exception path before any context write, so the conversation
context store is left unchanged (allowing retry). -/
theorem delete_edit_handler_rule :
    (∀ (req : ChatReq) (msg_id : String) (ts : Int),
      (handle_delete_memory req msg_id ts).intent = "confirm_delete" ∧
      (truthy req.memoryId = false →
        handle_delete_memory req msg_id ts =
          generate_response "confirm_delete" none none msg_id ts)) ∧
    (∀ (memories : List Memory) (req : ChatReq) (msg_id : String) (ts : Int),
      truthy req.memoryId = false →
      handle_edit_memory memories req msg_id ts =
        .ok (generate_response "edit_memory" none none msg_id ts)) ∧
    (∀ (memories : List Memory) (req : ChatReq) (msg_id : String) (ts : Int)
        (mid : String),
      req.memoryId = some mid → mid ≠ "" →
      memory_get_by_id memories mid = none →
      handle_edit_memory memories req msg_id ts =
        .error (.memoryNotFound "Memory not found")) ∧
    (∀ (contexts : CtxStore) (users : List UserRec) (memories : List Memory)
        (uid : String) (req : ChatReq) (fr : Fresh) (e : ChatError),
      process_message users memories uid req
          (some ((storeGet contexts uid).getD {})) fr = .error e →
      (send_chat_message contexts users memories uid req fr).1 = contexts) := by
  refine ⟨fun req msg_id ts => ⟨?_, fun h => ?_⟩, fun memories req msg_id ts h => ?_,
    fun memories req msg_id ts mid h hne hget => ?_,
    fun contexts users memories uid req fr e hproc => ?_⟩
  · by_cases ht : truthy req.memoryId = true
    · simp only [handle_delete_memory, ht, not_true, if_false, ite_false]
      rfl
    · simp only [handle_delete_memory, ht, not_false_iff, if_true, ite_true]
      rfl
  · simp [handle_delete_memory, h]
  · simp [handle_edit_memory, h]
  · have ht : truthy (some mid) = true := by simp [truthy, hne]
    simp [handle_edit_memory, h, ht, hget]
  · simp [send_chat_message, hproc]

/-- Witness for C6 amended: concrete delete prompt, concrete not-found
edit failure, and the unchanged context store around that failure. -/
theorem delete_edit_handler_rule_witness :
    handle_delete_memory { text := "delete it".data } "ai-1" 0 =
      generate_response "confirm_delete" none none "ai-1" 0 ∧
    handle_edit_memory [] { text := "edit the memory".data, memoryId := some "mem-x" }
      "ai-2" 0 = .error (.memoryNotFound "Memory not found") ∧
    (send_chat_message [] [] [] "u1"
      { text := "edit the memory".data, memoryId := some "mem-x" }
      ⟨"mem-new", "ai-2", 0⟩).1 = [] :=
  ⟨(delete_edit_handler_rule.1 { text := "delete it".data } "ai-1" 0).2 rfl,
   delete_edit_handler_rule.2.2.1 [] _ "ai-2" 0 "mem-x" rfl (by decide) rfl,
   delete_edit_handler_rule.2.2.2 [] [] [] "u1" _ ⟨"mem-new", "ai-2", 0⟩
     (.memoryNotFound "Memory not found") rfl⟩

/-- C7 (documenting the defect): `generate_response` renders only string
templates (`isinstance(content_template, str)`), but the `chat` entry of
`intent_responses` is the variant *list*, so every chat response carries
empty content — and the empty string is not one of the chat variants. Each
intent with a single string template, by contrast, renders exactly that
string when no substitution data is supplied. -/
theorem chat_template_never_rendered :
    (∀ (ud : Option UserData) (gc : Option GenCtx) (msg_id : String) (ts : Int),
      (generate_response "chat" ud gc msg_id ts).content = "") ∧
    List.lookup "chat" intent_responses = some (.variants chatVariants) ∧
    ("" ∈ chatVariants ↔ False) ∧
    (intent_responses.all fun pr =>
      match pr.2 with
      | .single t => (generate_response pr.1 none none "m" 0).content == t
      | .variants _ => true) = true := by
  exact ⟨fun ud gc msg_id ts => rfl, rfl, by decide, by decide⟩

/-- The hex digit value of a digit character emitted by `digitChar`. -/
def unDigit (c : Char) : Nat :=
  if 'a' ≤ c then c.toNat - 87 else c.toNat - 48

lemma unDigit_digitChar {n : Nat} (h : n < 16) : unDigit (digitChar n) = n := by
  interval_cases n <;> decide

lemma map_unDigit_digitChar {l : List Nat} (h : ∀ x ∈ l, x < 16) :
    (l.map digitChar).map unDigit = l := by
  induction l with
  | nil => rfl
  | cons a rest ih =>
    simp only [List.map_cons, List.cons.injEq]
    exact ⟨unDigit_digitChar (h a (List.mem_cons_self _ _)),
           ih fun x hx => h x (List.mem_cons_of_mem _ hx)⟩

lemma ofDigits_replicate_zero (b k : Nat) :
    Nat.ofDigits b (List.replicate k 0) = 0 := by
  induction k with
  | zero => rfl
  | succ n ih => simp [List.replicate_succ, Nat.ofDigits_cons, ih]

/-- Parsing the decimal rendering back recovers the number. -/
lemma unDec_natToDec (n : Nat) :
    Nat.ofDigits 10 ((natToDec n).reverse.map unDigit) = n := by
  by_cases h : n = 0
  · subst h; decide
  · simp only [natToDec, h, if_false, List.reverse_reverse]
    rw [map_unDigit_digitChar fun x hx =>
      lt_trans (Nat.digits_lt_base (by norm_num) hx) (by norm_num)]
    exact Nat.ofDigits_digits 10 n

lemma natToDec_inj {a b : Nat} (h : natToDec a = natToDec b) : a = b := by
  have h2 := congrArg (fun l => Nat.ofDigits 10 (l.reverse.map unDigit)) h
  simpa only [unDec_natToDec] using h2

/-- Parsing the 8-hex-digit rendering back recovers the 32-bit draw. -/
lemma unHex_hex8 (r : Nat) :
    Nat.ofDigits 16 ((hex8 r).reverse.map unDigit) = r := by
  simp only [hex8, List.reverse_reverse]
  rw [map_unDigit_digitChar, Nat.ofDigits_append, Nat.ofDigits_digits,
      ofDigits_replicate_zero, mul_zero, add_zero]
  intro x hx
  rcases List.mem_append.mp hx with h1 | h2
  · exact Nat.digits_lt_base (by norm_num) h1
  · rw [List.eq_of_mem_replicate h2]; norm_num

lemma hex8_inj {a b : Nat} (h : hex8 a = hex8 b) : a = b := by
  have h2 := congrArg (fun l => Nat.ofDigits 16 (l.reverse.map unDigit)) h
  simpa only [unHex_hex8] using h2

lemma hex8_length {r : Nat} (h : r < 2 ^ 32) : (hex8 r).length = 8 := by
  have hle : (Nat.digits 16 r).length ≤ 8 := by
    by_cases h0 : r = 0
    · subst h0; simp
    · rw [Nat.digits_len 16 r (by norm_num) h0]
      have hlt : Nat.log 16 r < 8 :=
        Nat.log_lt_of_lt_pow h0 (by calc r < 2 ^ 32 := h
                                      _ = 16 ^ 8 := by norm_num)
      omega
  simp only [hex8, List.length_reverse, List.length_map, List.length_append,
    List.length_replicate]
  omega

/-- Counterexample for C8 as stated: two calls of the generator are
determined by the millisecond timestamp they observe and the 4 random
bytes they draw; nothing prevents two calls from observing the same
millisecond and drawing the same bytes (concretely: both at millisecond
1700000000000 with bytes `0xdeadbeef`), and such calls produce the *same*
msgId, so unconditional distinctness — collision impossibility — fails. -/
theorem msgid_distinctness_counterexample :
    ¬ (∀ t₁ r₁ t₂ r₂ : Nat,
        generate_ai_message_id t₁ r₁ ≠ generate_ai_message_id t₂ r₂) :=
  fun h => h 1700000000000 3735928559 1700000000000 3735928559 rfl

/-- C8 amended: each msgId is
`{prefix}-{millisecond-timestamp}-{8 hex digits of the 4 random bytes}`
(definitionally, `generate_message_id`), and two calls are distinct
whenever their observed timestamps or their random draws differ; collisions
are possible exactly when both coincide. -/
theorem generate_message_id_inj (pre : String) (t₁ r₁ t₂ r₂ : Nat)
    (h₁ : r₁ < 2 ^ 32) (h₂ : r₂ < 2 ^ 32) (hne : (t₁, r₁) ≠ (t₂, r₂)) :
    generate_message_id pre t₁ r₁ ≠ generate_message_id pre t₂ r₂ := by
  intro heq
  have hdata : pre.data ++ '-' :: (natToDec t₁ ++ '-' :: hex8 r₁) =
      pre.data ++ '-' :: (natToDec t₂ ++ '-' :: hex8 r₂) := by
    have h0 := congrArg String.data heq
    simpa [generate_message_id] using h0
  have hmid := List.append_cancel_left hdata
  injection hmid with _ h3
  have h4 := List.append_inj' h3
    (by simp [List.length_cons, hex8_length h₁, hex8_length h₂])
  have ht : t₁ = t₂ := natToDec_inj h4.1
  injection h4.2 with _ h5
  have hr : r₁ = r₂ := hex8_inj h5
  exact hne (by rw [ht, hr])

/-- Witness for C8 amended: same millisecond, different draws — distinct
ids. -/
theorem generate_message_id_inj_witness :
    generate_message_id "ai" 1700000000000 1 ≠ generate_message_id "ai" 1700000000000 2 :=
  generate_message_id_inj "ai" 1700000000000 1 1700000000000 2
    (by norm_num) (by norm_num) (by decide)

/-- C9: history retrieval returns the user's persisted messages in
ascending timestamp order (oldest first), as the most recent suffix of the
user's full ascending history, with exactly `min limit total` entries. -/
theorem conversation_history_rule (db : List MessageRec) (user_id : String)
    (limit : Nat) :
    List.Sorted (fun a b => a.timestamp ≤ b.timestamp)
      (get_conversation_history db user_id limit) ∧
    get_conversation_history db user_id limit <:+ history_asc db user_id ∧
    (get_conversation_history db user_id limit).length =
      min limit (db.filter fun m => m.user_id == user_id).length := by
  refine ⟨?_, ?_, ?_⟩
  · have hs : List.Sorted tsGE
        ((db.filter fun m => m.user_id == user_id).insertionSort tsGE) :=
      List.sorted_insertionSort tsGE _
    have htake : List.Pairwise tsGE
        (((db.filter fun m => m.user_id == user_id).insertionSort tsGE).take limit) :=
      List.Pairwise.sublist (List.take_sublist _ _) hs
    exact List.pairwise_reverse.mpr htake
  · unfold get_conversation_history history_asc
    rw [List.reverse_take]
    exact List.drop_suffix _ _
  · simp [get_conversation_history, List.length_insertionSort]

/-- The seven intents `process_message` dispatches to a dedicated handler. -/
def dispatchedIntents : List String :=
  ["save_memory", "search_memory", "delete_memory", "edit_memory",
   "update_name", "update_avatar", "update_password"]

/-- Any other detected intent falls through to `_handle_normal_chat`. -/
lemma process_message_fallthrough {users : List UserRec} {memories : List Memory}
    {uid : String} {req : ChatReq} {ctx : Option Ctx} {fr : Fresh}
    (h : detect_intent req.text ctx ∉ dispatchedIntents) :
    process_message users memories uid req ctx fr =
      .ok (memories, handle_normal_chat users uid fr.msgId fr.timestamp) := by
  simp only [dispatchedIntents, List.mem_cons, List.not_mem_nil, or_false,
    not_or] at h
  obtain ⟨n1, n2, n3, n4, n5, n6, n7⟩ := h
  simp [process_message, n1, n2, n3, n4, n5, n6, n7]

/-- The normal-chat handler always answers with intent `chat`. -/
lemma handle_normal_chat_intent (users : List UserRec) (uid msg_id : String)
    (ts : Int) : (handle_normal_chat users uid msg_id ts).intent = "chat" := rfl

/-- A `chat` response intent neither arms nor clears any context. -/
lemma update_contexts_chat (store : CtxStore) (uid : String)
    (reqMem : Option String) : update_contexts store uid "chat" reqMem = store := by
  have h1 : "chat" ∉ continuationIntents := by decide
  have h2 : "chat" ∉ completionIntents := by decide
  simp [update_contexts, h1, h2]

/-- C10: every detected intent outside the seven dispatched ones —
including the continuation intents `add_description` and `confirm_delete`
and the completion intents such as `memory_saved` — falls through to the
normal-chat handler, whose response intent is `chat`; a `chat` response
leaves the context store untouched, so a context armed with
`expected_intent = add_description` or `confirm_delete` is never cleared
or advanced by a turn. -/
theorem fallthrough_chat_rule :
    (∀ (users : List UserRec) (memories : List Memory) (uid : String)
        (req : ChatReq) (ctx : Option Ctx) (fr : Fresh),
      detect_intent req.text ctx ∉ dispatchedIntents →
      process_message users memories uid req ctx fr =
        .ok (memories, handle_normal_chat users uid fr.msgId fr.timestamp)) ∧
    (∀ (users : List UserRec) (uid msg_id : String) (ts : Int),
      (handle_normal_chat users uid msg_id ts).intent = "chat") ∧
    (∀ (store : CtxStore) (uid : String) (reqMem : Option String),
      update_contexts store uid "chat" reqMem = store) ∧
    (∀ (contexts : CtxStore) (users : List UserRec) (memories : List Memory)
        (uid : String) (req : ChatReq) (fr : Fresh) (e : Ctx),
      storeGet contexts uid = some e →
      (e.expected_intent = some "add_description" ∨
        e.expected_intent = some "confirm_delete") →
      (send_chat_message contexts users memories uid req fr).1 = contexts) := by
  refine ⟨fun users memories uid req ctx fr h => process_message_fallthrough h,
    handle_normal_chat_intent, update_contexts_chat,
    fun contexts users memories uid req fr e hget hexp => ?_⟩
  have hnotin : detect_intent req.text (some e) ∉ dispatchedIntents := by
    rcases hexp with h | h <;> rw [detect_intent_of_expected h] <;> decide
  have hp : process_message users memories uid req (some e) fr =
      .ok (memories, handle_normal_chat users uid fr.msgId fr.timestamp) :=
    process_message_fallthrough hnotin
  simp [send_chat_message, hget, hp, handle_normal_chat_intent,
    update_contexts_chat]

/-- Witness for C10: an unmatched text yields the chat fallthrough, and a
context armed with `add_description` survives a turn unchanged. -/
theorem fallthrough_chat_rule_witness :
    process_message [] [] "u1" { text := "hello there".data } none ⟨"m", "ai-1", 0⟩ =
      .ok ([], handle_normal_chat [] "u1" "ai-1" 0) ∧
    (send_chat_message [("u1", { expected_intent := some "add_description" })]
      [] [] "u1" { text := "a lovely day at the beach".data } ⟨"m", "ai-2", 0⟩).1 =
      [("u1", { expected_intent := some "add_description" })] :=
  ⟨fallthrough_chat_rule.1 [] [] "u1" { text := "hello there".data } none
      ⟨"m", "ai-1", 0⟩ (by decide),
   fallthrough_chat_rule.2.2.2 _ [] [] "u1"
      { text := "a lovely day at the beach".data } ⟨"m", "ai-2", 0⟩
      { expected_intent := some "add_description" } rfl (Or.inl rfl)⟩

end HAI
